import Mathlib

/-!
# Verification of the senate-trading strategy and its disclosure scraper

Shallow embedding of the repository's four Python source files:

* `senate_long/strategy.py`   — `Strategy.load_orders`, `Strategy.rebalance`
* `senate_long/scraper.py`    — `fetch_reports`, `fetch_txs`, `senator_reports`,
                                `senate_trading`
* `senate_scraper.py`         — `reports_api`, `_tbody_from_link`, `txs_for_report`
* `senate_long.py`            — `load_orders_df`

Python strings are modelled as `List Char` (`PyStr`), pandas frames as lists of
records, machine floats as exact rationals (`Rat`), `datetime` values as a
calendar-date triple ordered lexicographically, and Python exceptions as
`Except PyErr`.  HTTP traffic is a parameter: a response (or a page of rows) is
supplied as a value, and sequences of GETs are supplied as a function from the
call number to the response.
-/

set_option maxHeartbeats 1000000

/-- Python strings, modelled as lists of characters. -/
abbrev PyStr := List Char

/-- Python `str.strip()`: remove leading and trailing whitespace. -/
def pyStrip (s : PyStr) : PyStr :=
  ((s.dropWhile Char.isWhitespace).reverse.dropWhile Char.isWhitespace).reverse

/-- Python `s.replace(',', '')`: drop every comma. -/
def removeCommas (s : PyStr) : PyStr :=
  s.filter (fun c => c ≠ ',')

/-- Python `s.split('$')[-1]`: the segment after the last `'$'`
(the whole string when no `'$'` occurs). -/
def afterLastDollar (s : PyStr) : PyStr :=
  (s.reverse.takeWhile (fun c => c ≠ '$')).reverse

/-- Value of a string of decimal digits (most significant first). -/
def digitsToNat (s : PyStr) : Nat :=
  s.foldl (fun n c => 10 * n + (c.toNat - 48)) 0

/-- Python `int(s)`: strip whitespace, allow one leading sign, then require a
non-empty run of decimal digits; `none` models the `ValueError` raised
otherwise. -/
def pyInt? (s : PyStr) : Option Int :=
  let t := pyStrip s
  match t with
  | [] => none
  | c :: rest =>
    if c = '-' then
      if rest ≠ [] ∧ rest.all Char.isDigit then some (-(digitsToNat rest : Int)) else none
    else if c = '+' then
      if rest ≠ [] ∧ rest.all Char.isDigit then some ((digitsToNat rest : Int)) else none
    else if (c :: rest).all Char.isDigit then some ((digitsToNat (c :: rest) : Int)) else none

/-- `int(cols[7].split('$')[-1].replace(',', ''))`, the amount-cell parse used
by both `fetch_txs` and `txs_for_report`. -/
def parseAmount (cell : PyStr) : Option Int :=
  pyInt? (removeCommas (afterLastDollar cell))

/-- A calendar date, the abstraction of a Python `datetime`. -/
structure Date where
  year : Nat
  month : Nat
  day : Nat
deriving DecidableEq, Repr

/-- `datetime` comparison `a <= b`: lexicographic on (year, month, day). -/
def Date.ble (a b : Date) : Bool :=
  if a.year ≠ b.year then decide (a.year < b.year)
  else if a.month ≠ b.month then decide (a.month < b.month)
  else decide (a.day ≤ b.day)

/-- Split a string on a separator character (Python `s.split(sep)`). -/
def splitOnChar (sep : Char) (s : PyStr) : List PyStr :=
  s.foldr
    (fun c acc =>
      match acc with
      | [] => if c = sep then [[], []] else [[c]]
      | a :: rest => if c = sep then [] :: a :: rest else (c :: a) :: rest)
    [[]]

/-- Python `datetime.strptime(s, '%m/%d/%Y')`: three `/`-separated all-digit
fields with the month in 1..12 and the day in 1..31; `none` models the
`ValueError` raised otherwise. -/
def parseDate (s : PyStr) : Option Date :=
  match splitOnChar '/' s with
  | [m, d, y] =>
    if m ≠ [] ∧ m.all Char.isDigit ∧ d ≠ [] ∧ d.all Char.isDigit ∧
        y ≠ [] ∧ y.all Char.isDigit then
      let mo := digitsToNat m
      let da := digitsToNat d
      if 1 ≤ mo ∧ mo ≤ 12 ∧ 1 ≤ da ∧ da ≤ 31 then some ⟨digitsToNat y, mo, da⟩
      else none
    else none
  | _ => none

/-- The Python exceptions the embedded code can raise. -/
inductive PyErr where
  | valueError
  | indexError
  | keyError
deriving DecidableEq, Repr

/-- A transaction record as appended to `stocks` by `fetch_txs` /
`txs_for_report` (columns `HEADER = [senator, tx_date, file_date, ticker,
type, tx_amount]`); the two date fields hold the raw strings, as in the
source. -/
structure TxRecord where
  senator : PyStr
  tx_date : PyStr
  file_date : PyStr
  ticker : PyStr
  order_type : PyStr
  tx_amount : Int
deriving DecidableEq, Repr

/-- A row of the reports API (`[first, last, _, link, file_date]`), with the
detail-page link already pulled out of its anchor tag. -/
structure IndexRow where
  first : PyStr
  last : PyStr
  link : PyStr
  file_date : PyStr
deriving DecidableEq, Repr

/-- Body of the per-row loop of `senate_long/scraper.py::fetch_txs`
(lines 113-129): parse the amount cell (an unparsable cell raises
`ValueError`, a short row `IndexError`), strip the date / ticker / type
cells, drop sentinel tickers, then keep the row only when its transaction
date parses on or after the cutoff and its type matches. -/
def processRow (first last file_date : PyStr) (cutoff : Date) (tx_type : PyStr)
    (cols : List PyStr) : Except PyErr (Option TxRecord) :=
  match cols.get? 7 with
  | none => .error .indexError
  | some amtCell =>
    match parseAmount amtCell with
    | none => .error .valueError
    | some tx_amount =>
      match cols.get? 1, cols.get? 3, cols.get? 6 with
      | some c1, some c3, some c6 =>
        let tx_date := pyStrip c1
        let ticker := pyStrip c3
        let order_type := pyStrip c6
        if ticker ≠ ("--").toList ∧ ticker ≠ [] then
          match parseDate tx_date with
          | none => .error .valueError
          | some d =>
            if Date.ble cutoff d then
              if order_type = tx_type then
                .ok (some ⟨first ++ ' ' :: last, tx_date, file_date, ticker,
                           order_type, tx_amount⟩)
              else .ok none
            else .ok none
        else .ok none
      | _, _, _ => .error .indexError

/-- The `for table_row in tbody.find_all('tr')` loop of `fetch_txs`: rows are
processed in order and the first raising row aborts the whole call. -/
def fetchTxsRows (first last file_date : PyStr) (cutoff : Date) (tx_type : PyStr) :
    List (List PyStr) → Except PyErr (List TxRecord)
  | [] => .ok []
  | cols :: rest =>
    match processRow first last file_date cutoff tx_type cols with
    | .error e => .error e
    | .ok o =>
      match fetchTxsRows first last file_date cutoff tx_type rest with
      | .error e => .error e
      | .ok recs => .ok (o.elim recs (· :: recs))

/-- `senate_long/scraper.py::fetch_txs`: the tbody is the already-fetched
result of `fetch_tbody` (`none` when the page has no tbody, else the rows of
cell texts); `if tbody:` guards the loop, so a missing tbody yields an empty
frame. -/
def fetch_txs (tbody : Option (List (List PyStr))) (first last file_date : PyStr)
    (cutoff : Date) (tx_type : PyStr) : Except PyErr (List TxRecord) :=
  match tbody with
  | none => .ok []
  | some rows => fetchTxsRows first last file_date cutoff tx_type rows

/-- Sort key used by `sort_values('tx_date')` after `pd.to_datetime`. -/
def dateKey (r : TxRecord) : Date :=
  (parseDate r.tx_date).getD ⟨0, 0, 0⟩

/-- Insert into a list kept in descending transaction-date order. -/
def insertDesc (r : TxRecord) : List TxRecord → List TxRecord
  | [] => [r]
  | x :: xs => if Date.ble (dateKey x) (dateKey r) then r :: x :: xs else x :: insertDesc r xs

/-- `all_txs.sort_values('tx_date', ascending=False)`. -/
def sortTxDesc (recs : List TxRecord) : List TxRecord :=
  recs.foldr insertDesc []

/-- The `for report in reports` loop of `senate_long/scraper.py::
senate_trading`: per-report transactions are concatenated in order, and a
raising report aborts the loop (there is no try/except around it). -/
def senateTradingLoop (detail : PyStr → Option (List (List PyStr))) (cutoff : Date)
    (tx_type : PyStr) : List IndexRow → Except PyErr (List TxRecord)
  | [] => .ok []
  | r :: rest =>
    match fetch_txs (detail r.link) r.first r.last r.file_date cutoff tx_type with
    | .error e => .error e
    | .ok txs =>
      match senateTradingLoop detail cutoff tx_type rest with
      | .error e => .error e
      | .ok more => .ok (txs ++ more)

/-- `senate_long/scraper.py::senate_trading`: fetch every report's
transactions, then sort by transaction date descending.  When no report
contributed any row the accumulated frame is a column-less `pd.DataFrame()`
and `sort_values('tx_date')` raises `KeyError`. -/
def senate_trading (detail : PyStr → Option (List (List PyStr))) (reports : List IndexRow)
    (cutoff : Date) (tx_type : PyStr) : Except PyErr (List TxRecord) :=
  match senateTradingLoop detail cutoff tx_type reports with
  | .error e => .error e
  | .ok recs => if recs.isEmpty then .error .keyError else .ok (sortTxDesc recs)

/-! ## `senate_scraper.py`: detail-page fetch with session-recovery retry -/

/-- One response to a detail-page GET: whether it was silently redirected to
the landing page (`response.url == LANDING_PAGE_URL`), and the `tbody`
elements of the parsed body, each a list of rows of cell texts. -/
structure DetailResponse where
  redirected : Bool
  tbodies : List (List (List PyStr))

/-- Result of `_tbody_from_link`, instrumented with the number of GETs issued
and the number of `_csrf` session bootstraps performed. -/
structure TbodyFetch where
  result : Option (List (List PyStr))
  gets : Nat
  boots : Nat
deriving Repr

/-- `senate_scraper.py::_tbody_from_link` (lines 166-182): GET the report URL;
if the response was redirected to the landing page, re-run `_csrf` once and
retry the GET once; then return the first tbody of whatever came back, or
`None` when there is none.  `get n` supplies the response to the n-th GET. -/
def tbody_from_link (get : Nat → DetailResponse) : TbodyFetch :=
  let r0 := get 0
  if r0.redirected then
    let r1 := get 1
    { result := r1.tbodies.head?, gets := 2, boots := 1 }
  else
    { result := r0.tbodies.head?, gets := 1, boots := 0 }

/-- Body of the per-row loop of `senate_scraper.py::txs_for_report`
(lines 199-214): like `processRow` but with no cutoff-date and no
transaction-type filter. -/
def rowToRecord (first last file_date : PyStr) (cols : List PyStr) :
    Except PyErr (Option TxRecord) :=
  match cols.get? 7 with
  | none => .error .indexError
  | some amtCell =>
    match parseAmount amtCell with
    | none => .error .valueError
    | some tx_amount =>
      match cols.get? 1, cols.get? 3, cols.get? 6 with
      | some c1, some c3, some c6 =>
        let tx_date := pyStrip c1
        let ticker := pyStrip c3
        let order_type := pyStrip c6
        if ticker ≠ ("--").toList ∧ ticker ≠ [] then
          .ok (some ⟨first ++ ' ' :: last, tx_date, file_date, ticker,
                     order_type, tx_amount⟩)
        else .ok none
      | _, _, _ => .error .indexError

/-- The row loop of `txs_for_report`: first raising row aborts the call. -/
def rowsToRecords (first last file_date : PyStr) :
    List (List PyStr) → Except PyErr (List TxRecord)
  | [] => .ok []
  | cols :: rest =>
    match rowToRecord first last file_date cols with
    | .error e => .error e
    | .ok o =>
      match rowsToRecords first last file_date rest with
      | .error e => .error e
      | .ok recs => .ok (o.elim recs (· :: recs))

/-- Result of `txs_for_report`, with the GET / bootstrap counts carried over
from `_tbody_from_link`. -/
structure TxsFetch where
  txs : Except PyErr (List TxRecord)
  gets : Nat
  boots : Nat

/-- `PDF_PREFIX = '/search/view/paper/'`. -/
def pdfPre : PyStr := ("/search/view/paper/").toList

/-- `senate_scraper.py::txs_for_report` (lines 185-216): fetch the tbody via
`_tbody_from_link`, return an empty frame for PDF links or pages without a
tbody, otherwise convert the rows. -/
def txs_for_report (get : Nat → DetailResponse) (row : IndexRow) : TxsFetch :=
  let t := tbody_from_link get
  if pdfPre.isPrefixOf row.link then
    { txs := .ok [], gets := t.gets, boots := t.boots }
  else
    match t.result with
    | none => { txs := .ok [], gets := t.gets, boots := t.boots }
    | some rows =>
      { txs := rowsToRecords row.first row.last row.file_date rows,
        gets := t.gets, boots := t.boots }

/-! ## Paginated index enumeration (`senator_reports`, both files) -/

/-- A row of the reports API JSON payload. -/
abbrev ReportRow := List PyStr

/-- `BATCH_SIZE = 100`. -/
def BATCH_SIZE : Nat := 100

/-- The `while len(reports) != 0` loop of `senator_reports` (identical in
`senate_scraper.py` lines 135-145 and `senate_long/scraper.py` lines
135-159): fetch at the current offset, stop on an empty page, else keep the
rows and advance the offset by `BATCH_SIZE`.  `fetch offset` supplies the
rows the API returns for that offset.  The loop has no bound of its own, so
the embedding carries fuel; the theorems show the result is independent of
any sufficiently large fuel.  The second component records the offset of
every request issued, in order. -/
def senatorReportsAux (fetch : Nat → List ReportRow) : Nat → Nat → List ReportRow × List Nat
  | 0, _ => ([], [])
  | fuel + 1, idx =>
    let reports := fetch idx
    if reports.isEmpty then ([], [idx])
    else
      let rest := senatorReportsAux fetch fuel (idx + BATCH_SIZE)
      (reports ++ rest.1, idx :: rest.2)

/-- `senator_reports`: enumerate the full index starting at offset 0. -/
def senator_reports (fetch : Nat → List ReportRow) (fuel : Nat) :
    List ReportRow × List Nat :=
  senatorReportsAux fetch fuel 0

/-! ## Index-page query (`fetch_reports` / `reports_api`) -/

/-- An HTTP response to the reports-API POST: its status code, and
`some rows` when `response.json()` succeeds and carries a `data` field
(`none` models a body on which `response.json()` raises). -/
structure IndexResponse where
  status_code : Nat
  data : Option (List ReportRow)
deriving Repr

/-- `senate_scraper.py::reports_api` (lines 148-163): a non-200 status is only
logged; the function then parses the body regardless and returns its `data`
field, raising when the body is not JSON. -/
def reports_api (resp : IndexResponse) : Except PyErr (List ReportRow) :=
  match resp.data with
  | none => .error .valueError
  | some d => .ok d

/-- `senate_long/scraper.py::fetch_reports` (lines 40-66): on a non-200 status
log and return `[]`; otherwise parse the body and return its `data` field. -/
def fetch_reports (resp : IndexResponse) : Except PyErr (List ReportRow) :=
  if resp.status_code ≠ 200 then .ok []
  else
    match resp.data with
    | none => .error .valueError
    | some d => .ok d

/-! ## `senate_long/strategy.py`: order weighting and the rebalance cycle -/

/-- `Strategy.load_orders` (lines 60-71), weighting step: given the filtered
purchase records and the account's cash, attach to every record the column
`weighted_amount = tx_amount / tx_amount.sum() * cash`.  pandas arithmetic is
modelled exactly over `Rat`. -/
def load_orders (orders : List TxRecord) (cash : Rat) : List (TxRecord × Rat) :=
  let total : Rat := (orders.map (fun r => (r.tx_amount : Rat))).sum
  orders.map (fun r => (r, (r.tx_amount : Rat) / total * cash))

/-- The three brokerage-facing steps of a rebalance cycle. -/
inductive Call where
  | close_all
  | load_orders
  | buy_orders
deriving DecidableEq, Repr

/-- The liquidate / build / submit sequence. -/
def seqCalls : List Call := [.close_all, .load_orders, .buy_orders]

/-- Run a block of calls, numbering them from `i`; `failsAt k` means the k-th
call of the cycle raises.  Returns the calls actually started (a raising call
is started but aborts the block) and whether the block raised. -/
def runCalls (failsAt : Nat → Bool) : Nat → List Call → List Call × Bool
  | _, [] => ([], false)
  | i, c :: cs =>
    if failsAt i then ([c], true)
    else
      match runCalls failsAt (i + 1) cs with
      | (t, f) => (c :: t, f)

/-- The market clock (`self.clock`), timestamps as integers. -/
structure Clock where
  timestamp : Int
  next_open : Int
deriving DecidableEq, Repr

/-- Outcome of one `rebalance()` call: the brokerage-step trace, whether an
exception escaped the method, and the final `self.next_rebalance`. -/
structure RebResult where
  trace : List Call
  raised : Bool
  next_rebalance : Int
deriving DecidableEq, Repr

/-- `Strategy.rebalance` (lines 139-155): the source runs the
close_all / load_orders / buy_orders sequence once *outside* any try block
(calls 0-2, whose exceptions propagate and leave `next_rebalance` untouched),
then again *inside* `try:` (calls 3-5); a raise there is caught by the bare
`except:` and sets `next_rebalance = self.clock.next_open`, while full
success advances it by `timedelta(days=freq)`. -/
def rebalance (clock : Clock) (freq : Int) (next_reb : Int) (failsAt : Nat → Bool) :
    RebResult :=
  match runCalls failsAt 0 seqCalls with
  | (t1, true) => { trace := t1, raised := true, next_rebalance := next_reb }
  | (t1, false) =>
    match runCalls failsAt 3 seqCalls with
    | (t2, true) => { trace := t1 ++ t2, raised := false, next_rebalance := clock.next_open }
    | (t2, false) => { trace := t1 ++ t2, raised := false, next_rebalance := next_reb + freq }

/-! ## `senate_long.py::load_orders_df` -/

/-- A row of the quiverquant `senate_trading()` frame. -/
structure QuiverRec where
  ticker : PyStr
  senator : PyStr
  date : Date
  transaction : PyStr
  amount : Rat
deriving DecidableEq, Repr

/-- `FUND_SIZE = 1000`. -/
def FUND_SIZE : Rat := 1000

/-- The filter of `load_orders_df` (line 35):
`(df['Date'] >= cutoff_date) & (df['Transaction'] == 'Purchase')`. -/
def qualifies (cutoff : Date) (r : QuiverRec) : Bool :=
  Date.ble cutoff r.date && r.transaction == ("Purchase").toList

/-- `senate_long.py::load_orders_df` (lines 30-43): filter to purchases inside
the position length, weight each amount by its share of the filtered sum
times `FUND_SIZE`, and keep ticker and weighted amount (the other columns are
dropped). -/
def load_orders_df (df : List QuiverRec) (cutoff : Date) : List (PyStr × Rat) :=
  let f := df.filter (qualifies cutoff)
  let total : Rat := (f.map (fun r => r.amount)).sum
  f.map (fun r => (r.ticker, r.amount / total * FUND_SIZE))

/-- `True` exactly when the call raised (the `Except` is an `error`). -/
def isErrB : Except PyErr (List TxRecord) → Bool
  | .error _ => true
  | .ok _ => false

/-! ## Concrete inputs used by the witnesses -/

/-- A $300 purchase record. -/
def c1recA : TxRecord := ⟨[], [], [], ('A') :: [], [], 300⟩

/-- A $700 purchase record. -/
def c1recB : TxRecord := ⟨[], [], [], ('B') :: [], [], 700⟩

/-- A quiver row that is a sale before the cutoff, so it never qualifies. -/
def c4rec : QuiverRec := ⟨("AAA").toList, [], ⟨2024, 3, 1⟩, ("Sale").toList, 500⟩

/-- A page source: one row at offset 0, one at offset 100, nothing later. -/
def c5fetch : Nat → List ReportRow := fun n =>
  if n = 0 then [[('a') :: []]] else if n = 100 then [[('b') :: []]] else []

/-- The two pages served by `c5fetch`. -/
def c5pages : Nat → List ReportRow := fun i =>
  if i = 0 then [[('a') :: []]] else [[('b') :: []]]

/-- Every detail-page GET is redirected to the (tbody-less) landing page. -/
def c6get : Nat → DetailResponse := fun _ => ⟨true, []⟩

/-- An index row with a non-PDF detail link. -/
def c6row : IndexRow := ⟨[], [], ('/') :: [], []⟩

/-- A well-formed purchase row: $100, dated 05/02/2024. -/
def c8goodCols : List PyStr :=
  [[], ("05/02/2024").toList, [], ("AAA").toList, [], [],
   ("Purchase").toList, ("$100").toList]

/-- A purchase row whose disclosed amount cell is `$0`. -/
def c8zeroCols : List PyStr :=
  [[], ("05/02/2024").toList, [], ("AAA").toList, [], [],
   ("Purchase").toList, ("$0").toList]

/-- The record `fetch_txs` builds from `c8zeroCols`. -/
def c8zeroRec : TxRecord :=
  ⟨('a') :: ' ' :: ('b') :: [], ("05/02/2024").toList, ("06/01/2024").toList,
   ("AAA").toList, ("Purchase").toList, 0⟩

/-- The record `fetch_txs` builds from `c8goodCols`. -/
def c8goodRec : TxRecord :=
  ⟨('a') :: ' ' :: ('b') :: [], ("05/02/2024").toList, ("06/01/2024").toList,
   ("AAA").toList, ("Purchase").toList, 100⟩

/-- A row whose amount cell `N/A` cannot be parsed as an integer. -/
def c9malCols : List PyStr :=
  [[], ("05/02/2024").toList, [], ("BBB").toList, [], [],
   ("Purchase").toList, ("N/A").toList]

/-- Filing index rows pointing at links `1` (malformed row) and `2` (good row). -/
def c9row1 : IndexRow := ⟨('a') :: [], ('b') :: [], ('1') :: [], ("06/01/2024").toList⟩

/-- See `c9row1`. -/
def c9row2 : IndexRow := ⟨('a') :: [], ('b') :: [], ('2') :: [], ("06/01/2024").toList⟩

/-- Detail pages: link `1` holds the malformed row, link `2` the good row. -/
def c9detail : PyStr → Option (List (List PyStr)) := fun l =>
  if l = ('1') :: [] then some [c9malCols]
  else if l = ('2') :: [] then some [c8goodCols]
  else none

/-- `Strategy.load_orders` (senate_long/strategy.py lines 60-71) end to end:
`orders = SenateScraper().senate_trading(lookback, tx_type='Purchase')`, then
the account's cash weights each order; an exception from the scrape (such as
the `KeyError` that `senate_trading` raises when no record qualifies)
propagates out of `load_orders`. -/
def strategy_load_orders (detail : PyStr → Option (List (List PyStr)))
    (reports : List IndexRow) (cutoff : Date) (cash : Rat) :
    Except PyErr (List (TxRecord × Rat)) :=
  match senate_trading detail reports cutoff (("Purchase").toList) with
  | .error e => .error e
  | .ok orders => .ok (load_orders orders cash)

/-- A detail-page row whose transaction type is `Sale`, so a Purchase-filtered
scrape keeps nothing from it. -/
def c4saleCols : List PyStr :=
  [[], ("05/02/2024").toList, [], ("AAA").toList, [], [],
   ("Sale").toList, ("$100").toList]

/-- An index row whose detail link `3` holds only the sale row. -/
def c4srow : IndexRow := ⟨('a') :: [], ('b') :: [], ('3') :: [], ("06/01/2024").toList⟩

/-- Detail pages for the C4 scenario: one filing, containing only a sale. -/
def c4detail : PyStr → Option (List (List PyStr)) := fun l =>
  if l = ('3') :: [] then some [c4saleCols] else none

/-! ## Theorems -/

/-- C2: the claim says every exception raised during the rebalance sequence is
caught and collapses the schedule to the next market open.  The source runs
the whole liquidate / build / submit sequence once *before* the `try:` block,
so an exception in that first pass (here: the very first `close_all`)
propagates out of `rebalance()` and leaves `next_rebalance` untouched
(100 ≠ `clock.next_open` = 5). -/
theorem rebalance_unguarded_exception_propagates :
    rebalance ⟨0, 5⟩ 7 100 (fun n => n == 0) =
      { trace := [Call.close_all], raised := true, next_rebalance := 100 } ∧
    (rebalance ⟨0, 5⟩ 7 100 (fun n => n == 0)).next_rebalance ≠ (Clock.mk 0 5).next_open := by
  exact ⟨by decide, by decide⟩

/-- C3: the claim says a successful cycle performs close_all, load_orders and
buy_orders exactly once each.  On a cycle where no call raises, the source
performs each of the three steps twice (once before the `try:` block and once
inside it); the advance of the next-due timestamp by `rebalance_frequency`
days does hold. -/
theorem rebalance_success_sequence_twice (clock : Clock) (freq next_reb : Int) :
    rebalance clock freq next_reb (fun _ => false) =
      { trace := seqCalls ++ seqCalls, raised := false,
        next_rebalance := next_reb + freq } ∧
    (rebalance clock freq next_reb (fun _ => false)).trace.count Call.close_all = 2 := by
  exact ⟨rfl, rfl⟩

/-- C4 counterexample: a scrape over one filing whose only row is a sale
extracts zero qualifying purchase records, and `Strategy.load_orders` then
raises `KeyError` (from `senate_trading`, which sorts a column-less frame
when no record qualifies) instead of returning an empty plan. -/
theorem load_orders_empty_set_raises_counterexample :
    fetch_txs (c4detail c4srow.link) c4srow.first c4srow.last c4srow.file_date
      ⟨2024, 1, 1⟩ (("Purchase").toList) = .ok [] ∧
    strategy_load_orders c4detail [c4srow] ⟨2024, 1, 1⟩ 1000 = .error .keyError ∧
    strategy_load_orders c4detail [c4srow] ⟨2024, 1, 1⟩ 1000 ≠ .ok [] :=
  ⟨rfl, rfl, fun h => Except.noConfusion h⟩

/-- C4 amended: when the filtered transaction set is empty, the quiver-based
`load_orders_df` returns an empty plan (its elementwise weighting evaluates
no division and cannot raise), but `Strategy.load_orders` does not: it
propagates the `KeyError` that `senate_trading` raises whenever the scrape
loop yields no records, so that path raises instead of producing an empty
plan. -/
theorem empty_filtered_set_plan (df : List QuiverRec) (cutoff : Date)
    (hfil : df.filter (qualifies cutoff) = [])
    (detail : PyStr → Option (List (List PyStr))) (reports : List IndexRow)
    (cutoff2 : Date) (cash : Rat)
    (hempty : senateTradingLoop detail cutoff2 (("Purchase").toList) reports = .ok []) :
    load_orders_df df cutoff = [] ∧
    strategy_load_orders detail reports cutoff2 cash = .error .keyError := by
  constructor
  · simp [load_orders_df, hfil]
  · have h2 : senate_trading detail reports cutoff2 (("Purchase").toList) =
        .error .keyError := by
      unfold senate_trading
      rw [hempty]
      rfl
    unfold strategy_load_orders
    rw [h2]

/-- Witness for the C4 amended theorem: a non-qualifying quiver row yields an
empty plan, while a scrape whose only filing holds a sale makes
`Strategy.load_orders` raise `KeyError`. -/
theorem empty_filtered_set_plan_witness :
    load_orders_df [c4rec] ⟨2024, 4, 2⟩ = [] ∧
    strategy_load_orders c4detail [c4srow] ⟨2024, 1, 1⟩ 1000 = .error .keyError :=
  empty_filtered_set_plan [c4rec] ⟨2024, 4, 2⟩ (by decide) c4detail [c4srow]
    ⟨2024, 1, 1⟩ 1000 rfl

/-- C7 counterexample: `reports_api` receives a 500 response whose body still
parses; it merely logs the failure and returns the decoded `data` field,
which is not the empty sequence the claim requires. -/
theorem reports_api_non200_counterexample :
    (IndexResponse.mk 500 (some [[('x') :: []]])).status_code ≠ 200 ∧
    reports_api ⟨500, some [[('x') :: []]]⟩ = .ok [[('x') :: []]] ∧
    ([[('x') :: []]] : List ReportRow) ≠ [] :=
  ⟨by decide, rfl, by decide⟩

/-- C7 amended: `fetch_reports` (senate_long/scraper.py) returns an empty
sequence without raising on every non-200 response; `reports_api`
(senate_scraper.py) does not share this behaviour. -/
theorem fetch_reports_non200_returns_empty (resp : IndexResponse)
    (h : resp.status_code ≠ 200) : fetch_reports resp = .ok [] := by
  simp [fetch_reports, h]

/-- Witness for the C7 amended theorem: a 404 response yields `ok []`. -/
theorem fetch_reports_non200_returns_empty_witness :
    (IndexResponse.mk 404 none).status_code ≠ 200 ∧
    fetch_reports ⟨404, none⟩ = .ok [] :=
  ⟨by decide, fetch_reports_non200_returns_empty _ (by decide)⟩

/-- C1: for a non-empty filtered set of purchase records (all amounts
positive), `load_orders` produces exactly one entry per record, each weighted
to `tx_amount / sum * cash`, and the weighted amounts sum to the capital base
exactly (pandas floats are modelled as exact rationals, so the equality holds
with no rounding error at all, a fortiori within two-decimal tolerance). -/
theorem load_orders_plan_correct (orders : List TxRecord) (cash : Rat)
    (hne : orders ≠ []) (hpos : ∀ r ∈ orders, 0 < r.tx_amount) :
    (load_orders orders cash).length = orders.length ∧
    (∀ p ∈ load_orders orders cash,
      p.2 = (p.1.tx_amount : Rat) /
        ((orders.map (fun r => (r.tx_amount : Rat))).sum) * cash) ∧
    ((load_orders orders cash).map (fun p => p.2)).sum = cash := by
  set S : Rat := (orders.map (fun r => (r.tx_amount : Rat))).sum with hS
  have hSpos : 0 < S := by
    rw [hS]
    apply List.sum_pos
    · intro x hx
      obtain ⟨r, hr, hxe⟩ := List.mem_map.mp hx
      rw [← hxe]
      exact_mod_cast hpos r hr
    · simpa using hne
  have hS0 : S ≠ 0 := ne_of_gt hSpos
  refine ⟨by simp [load_orders], ?_, ?_⟩
  · intro p hp
    simp only [load_orders, ← hS, List.mem_map] at hp
    obtain ⟨r, hr, hpe⟩ := hp
    rw [← hpe]
  · have hmap : (load_orders orders cash).map (fun p => p.2) =
        orders.map (fun r => (r.tx_amount : Rat) * (cash / S)) := by
      simp only [load_orders, ← hS, List.map_map]
      apply List.map_congr_left
      intro r _
      simp only [Function.comp_apply]
      rw [div_mul_eq_mul_div, mul_div_assoc]
    rw [hmap, List.sum_map_mul_right, ← hS, mul_comm, div_mul_cancel₀ cash hS0]

/-- Witness for C1: the spec's own scenario of a $300 and a $700 record with
capital base 1000. -/
theorem load_orders_plan_correct_witness :
    ([c1recA, c1recB] : List TxRecord) ≠ [] ∧
    ((load_orders [c1recA, c1recB] 1000).map (fun p => p.2)).sum = 1000 :=
  ⟨by decide, (load_orders_plan_correct [c1recA, c1recB] 1000 (by decide) (by decide)).2.2⟩

/-- Pagination invariant: starting `m` pages before the empty page, with
enough fuel, the loop returns the concatenation of those pages and requests
exactly the offsets `k*BATCH_SIZE ... (k+m)*BATCH_SIZE`. -/
theorem senatorReportsAux_spec (fetch : Nat → List ReportRow)
    (pages : Nat → List ReportRow) (N : Nat)
    (hfull : ∀ i, i < N → fetch (i * BATCH_SIZE) = pages i ∧ pages i ≠ [])
    (hlast : fetch (N * BATCH_SIZE) = []) :
    ∀ m k fuel, k + m = N → m < fuel →
      senatorReportsAux fetch fuel (k * BATCH_SIZE) =
        (((List.range' k m).map pages).flatten,
         (List.range' k (m + 1)).map (fun i => i * BATCH_SIZE)) := by
  intro m
  induction m with
  | zero =>
    intro k fuel hk hf
    match fuel, hf with
    | f + 1, _ =>
      have hk0 : k = N := by omega
      subst hk0
      simp [senatorReportsAux, hlast, List.range']
  | succ m ih =>
    intro k fuel hk hf
    match fuel, hf with
    | f + 1, hf =>
      have hkN : k < N := by omega
      obtain ⟨hfk, hne⟩ := hfull k hkN
      have hrec := ih (k + 1) f (by omega) (by omega)
      have hstep : k * BATCH_SIZE + BATCH_SIZE = (k + 1) * BATCH_SIZE := by ring
      have hr1 : List.range' k (m + 1) = k :: List.range' (k + 1) m := rfl
      have hr2 : List.range' k (m + 2) = k :: List.range' (k + 1) (m + 1) := rfl
      have hie : (pages k).isEmpty = false := List.isEmpty_eq_false.mpr hne
      simp only [senatorReportsAux, hie, Bool.false_eq_true, if_false, hstep, hrec,
        hfk, hr1, hr2, List.map_cons, List.flatten_cons]

/-- C5: given a page source with `N` non-empty pages at offsets
`0, 100, ..., (N-1)*100` and an empty page at `N*100`, `senator_reports`
terminates (the result is the same for every sufficient fuel) and returns the
concatenation of the non-empty pages in request order, having requested
exactly the offsets `0, 100, ..., N*100` and stopped at the empty page. -/
theorem senator_reports_concat (fetch : Nat → List ReportRow)
    (pages : Nat → List ReportRow) (N : Nat)
    (hfull : ∀ i, i < N → fetch (i * BATCH_SIZE) = pages i ∧ pages i ≠ [])
    (hlast : fetch (N * BATCH_SIZE) = []) (fuel : Nat) (hfuel : N < fuel) :
    senator_reports fetch fuel =
      (((List.range N).map pages).flatten,
       (List.range (N + 1)).map (fun i => i * BATCH_SIZE)) := by
  have h := senatorReportsAux_spec fetch pages N hfull hlast N 0 fuel (by omega) hfuel
  simpa [senator_reports, List.range_eq_range'] using h

/-- Witness for C5: two one-row pages then an empty page; fuel 3 suffices and
the enumeration returns both rows and the offset trace `[0, 100, 200]`. -/
theorem senator_reports_concat_witness :
    senator_reports c5fetch 3 =
      ([[('a') :: []], [('b') :: []]], [0, 100, 200]) := by
  have hf : ∀ i, i < 2 → c5fetch (i * BATCH_SIZE) = c5pages i ∧ c5pages i ≠ [] := by
    intro i hi
    interval_cases i <;> exact ⟨rfl, by decide⟩
  have h := senator_reports_concat c5fetch c5pages 2 hf rfl 3 (by omega)
  rw [h]
  decide

/-- C6: when the first detail-page GET is silently redirected to the landing
page, `txs_for_report` re-runs the session bootstrap and retries the GET
exactly once (2 GETs, 1 bootstrap in total, whatever the retry returns); and
when the retried response is also a redirect to the landing page (whose body
contains no tbody element), the extraction returns an empty sequence for the
filing with no further bootstrap or retry. -/
theorem txs_for_report_single_retry (get : Nat → DetailResponse) (row : IndexRow)
    (h0 : (get 0).redirected = true) :
    (txs_for_report get row).gets = 2 ∧ (txs_for_report get row).boots = 1 ∧
    ((get 1).redirected = true → (get 1).tbodies = [] →
      (txs_for_report get row).txs = .ok []) := by
  have ht : tbody_from_link get =
      { result := (get 1).tbodies.head?, gets := 2, boots := 1 } := by
    simp [tbody_from_link, h0]
  refine ⟨?_, ?_, fun _ hl => ?_⟩
  · unfold txs_for_report
    rw [ht]
    cases hx : (get 1).tbodies.head? <;> split <;> simp
  · unfold txs_for_report
    rw [ht]
    cases hx : (get 1).tbodies.head? <;> split <;> simp
  · unfold txs_for_report
    rw [ht, hl]
    split <;> simp

/-- Witness for C6: both GETs redirect to the tbody-less landing page; the
extraction does 2 GETs, 1 bootstrap, and returns no records. -/
theorem txs_for_report_single_retry_witness :
    (c6get 0).redirected = true ∧
    (txs_for_report c6get c6row).gets = 2 ∧
    (txs_for_report c6get c6row).boots = 1 ∧
    (txs_for_report c6get c6row).txs = .ok [] := by
  have h := txs_for_report_single_retry c6get c6row rfl
  exact ⟨rfl, h.1, h.2.1, h.2.2 rfl rfl⟩

/-- `takeWhile` passes over a block that satisfies the predicate. -/
theorem takeWhile_append_all (p : Char → Bool) (l1 l2 : List Char)
    (h : ∀ a ∈ l1, p a = true) :
    (l1 ++ l2).takeWhile p = l1 ++ l2.takeWhile p := by
  induction l1 with
  | nil => rfl
  | cons a l ih =>
    simp only [List.cons_append, List.takeWhile_cons, h a (List.mem_cons_self a l),
      if_true, List.cons.injEq, true_and]
    exact ih (fun x hx => h x (List.mem_cons_of_mem a hx))

/-- `s.split('$')[-1]` of a string ending in `'$'` followed by a dollar-free
suffix is exactly that suffix. -/
theorem afterLastDollar_append (pre b : PyStr) (hb : ('$') ∉ b) :
    afterLastDollar (pre ++ '$' :: b) = b := by
  unfold afterLastDollar
  rw [List.reverse_append, List.reverse_cons, List.append_assoc,
    List.singleton_append,
    takeWhile_append_all _ _ _ (fun a ha => by
      simp only [decide_eq_true_eq]
      intro he
      exact hb (he ▸ List.mem_reverse.mp ha)),
    List.takeWhile_cons]
  simp

/-- A decimal digit is not whitespace. -/
theorem digit_not_whitespace (c : Char) (h : c.isDigit = true) :
    c.isWhitespace = false := by
  cases hw : c.isWhitespace with
  | false => rfl
  | true =>
    exfalso
    simp only [Char.isWhitespace, Bool.or_eq_true, decide_eq_true_eq] at hw
    rcases hw with ((h1 | h1) | h1) | h1 <;> rw [h1] at h <;> exact absurd h (by decide)

/-- `dropWhile` is the identity when nothing satisfies the predicate. -/
theorem dropWhile_all_false (p : Char → Bool) (l : List Char)
    (h : ∀ c ∈ l, p c = false) : l.dropWhile p = l := by
  cases l with
  | nil => rfl
  | cons a t => simp [List.dropWhile_cons, h a (List.mem_cons_self a t)]

/-- `str.strip()` of an all-digit string is the string itself. -/
theorem pyStrip_of_digits (l : PyStr) (h : l.all Char.isDigit = true) :
    pyStrip l = l := by
  have hws : ∀ c ∈ l, c.isWhitespace = false := fun c hc =>
    digit_not_whitespace c (List.all_eq_true.mp h c hc)
  unfold pyStrip
  rw [dropWhile_all_false _ _ hws,
    dropWhile_all_false _ _ (fun c hc => hws c (List.mem_reverse.mp hc)),
    List.reverse_reverse]

/-- `int()` of a non-empty all-digit string is its decimal value. -/
theorem pyInt?_digits (l : PyStr) (hne : l ≠ []) (hd : l.all Char.isDigit = true) :
    pyInt? l = some ((digitsToNat l : Nat) : Int) := by
  unfold pyInt?
  rw [pyStrip_of_digits l hd]
  cases l with
  | nil => exact absurd rfl hne
  | cons c rest =>
    have hc : c.isDigit = true := List.all_eq_true.mp hd c (List.mem_cons_self c rest)
    have hcm : ¬ c = '-' := fun he => absurd (he ▸ hc) (by decide)
    have hcp : ¬ c = '+' := fun he => absurd (he ▸ hc) (by decide)
    simp [hcm, hcp, hd]

/-- C10: for an amount cell of the shape `⟨anything⟩$B` with `B` dollar-free —
in particular the disclosed range format `$A - $B` — the parse used by
`fetch_txs` and `txs_for_report` keeps the digits after the *last* `'$'` with
commas removed, so the recorded amount is exactly the upper bound `B` of the
range, never the lower bound or the midpoint. -/
theorem parseAmount_takes_upper_bound (pre b : PyStr) (hb : ('$') ∉ b)
    (hne : removeCommas b ≠ []) (hd : (removeCommas b).all Char.isDigit = true) :
    parseAmount (pre ++ '$' :: b) = some ((digitsToNat (removeCommas b) : Nat) : Int) := by
  unfold parseAmount
  rw [afterLastDollar_append pre b hb]
  exact pyInt?_digits _ hne hd

/-- Witness for C10: the cell `$1,001 - $15,000` parses to 15000 (the upper
bound), not 1001 and not the midpoint. -/
theorem parseAmount_takes_upper_bound_witness :
    parseAmount (("$1,001 - ").toList ++ '$' :: ("15,000").toList) = some 15000 ∧
    parseAmount (("$1,001 - ").toList ++ '$' :: ("15,000").toList) ≠ some 1001 ∧
    parseAmount (("$1,001 - ").toList ++ '$' :: ("15,000").toList) ≠ some 8000 := by
  have h := parseAmount_takes_upper_bound (("$1,001 - ").toList) (("15,000").toList)
    (by decide) (by decide) (by decide)
  refine ⟨?_, ?_, ?_⟩ <;> rw [h] <;> decide

/-- Inversion of a successful `processRow`: a produced record has a stripped,
non-sentinel, non-empty ticker, its amount is exactly the parse of the row's
amount cell, its transaction-date string is the stripped date cell and
parses, and its filing date is the one passed in.  Nothing forces the amount
to be positive or the dates to be ordered. -/
theorem processRow_ok_inv (first last file_date : PyStr) (cutoff : Date) (tx_type : PyStr)
    (cols : List PyStr) (rec : TxRecord)
    (h : processRow first last file_date cutoff tx_type cols = .ok (some rec)) :
    rec.ticker ≠ [] ∧ rec.ticker ≠ ("--").toList ∧
    (∃ c, cols.get? 7 = some c ∧ parseAmount c = some rec.tx_amount) ∧
    (∃ c, cols.get? 1 = some c ∧ rec.tx_date = pyStrip c ∧
      ∃ d, parseDate (pyStrip c) = some d) ∧
    rec.file_date = file_date := by
  unfold processRow at h
  split at h
  · simp at h
  rename_i amtCell h7
  split at h
  · simp at h
  rename_i amt hpa
  split at h
  rotate_left
  · simp at h
  rename_i c1 c3 c6 h1 h3 h6
  dsimp only at h
  split at h
  · rename_i htick
    split at h
    · simp at h
    rename_i d hpd
    split at h
    · split at h
      · simp only [Except.ok.injEq, Option.some.injEq] at h
        subst h
        exact ⟨htick.2, htick.1, ⟨amtCell, h7, hpa⟩, ⟨c1, h1, rfl, d, hpd⟩, rfl⟩
      · simp at h
    · simp at h
  · simp at h

/-- Every record returned by `fetch_txs` comes from some row of the tbody via
a successful `processRow`. -/
theorem fetchTxsRows_mem (first last file_date : PyStr) (cutoff : Date) (tx_type : PyStr) :
    ∀ (rows : List (List PyStr)) (recs : List TxRecord),
      fetchTxsRows first last file_date cutoff tx_type rows = .ok recs →
      ∀ r ∈ recs, ∃ cols ∈ rows,
        processRow first last file_date cutoff tx_type cols = .ok (some r) := by
  intro rows
  induction rows with
  | nil =>
    intro recs h r hr
    simp only [fetchTxsRows, Except.ok.injEq] at h
    subst h
    simp at hr
  | cons cols rest ih =>
    intro recs h r hr
    simp only [fetchTxsRows] at h
    split at h
    · simp at h
    rename_i o hpr
    split at h
    · simp at h
    rename_i recs' hrec
    simp only [Except.ok.injEq] at h
    subst h
    cases o with
    | none =>
      simp only [Option.elim] at hr
      obtain ⟨c, hc, hpc⟩ := ih recs' hrec r hr
      exact ⟨c, List.mem_cons_of_mem _ hc, hpc⟩
    | some rec0 =>
      simp only [Option.elim] at hr
      rcases List.mem_cons.mp hr with he | hm
      · subst he
        exact ⟨cols, List.mem_cons_self _ _, hpr⟩
      · obtain ⟨c, hc, hpc⟩ := ih recs' hrec r hm
        exact ⟨c, List.mem_cons_of_mem _ hc, hpc⟩

/-- C8 counterexample: a detail-page row whose amount cell reads `$0` passes
every check in `fetch_txs` and produces a record with transaction amount 0,
refuting the claim that every produced record has a strictly positive
amount. -/
theorem fetch_txs_zero_amount_counterexample :
    fetch_txs (some [c8zeroCols]) (('a') :: []) (('b') :: []) (("06/01/2024").toList)
      ⟨2024, 1, 1⟩ (("Purchase").toList) = .ok [c8zeroRec] ∧
    c8zeroRec.tx_amount = 0 := ⟨rfl, rfl⟩

/-- C8 amended: every record produced by `fetch_txs` has a ticker that is
neither empty nor the sentinel `--` (this part is unconditional); its amount
is positive and its transaction date is at most the filing date only under
the hypothesis that the source table's cells satisfy those properties, since
the extraction itself performs no such check. -/
theorem fetch_txs_record_invariants (tbody : Option (List (List PyStr)))
    (first last file_date : PyStr) (cutoff : Date) (tx_type : PyStr) (fdd : Date)
    (recs : List TxRecord)
    (hok : fetch_txs tbody first last file_date cutoff tx_type = .ok recs)
    (hfd : parseDate file_date = some fdd)
    (hamt : ∀ rows, tbody = some rows → ∀ cols ∈ rows, ∀ c a,
      cols.get? 7 = some c → parseAmount c = some a → 0 < a)
    (hdate : ∀ rows, tbody = some rows → ∀ cols ∈ rows, ∀ c d,
      cols.get? 1 = some c → parseDate (pyStrip c) = some d → Date.ble d fdd = true) :
    ∀ r ∈ recs, r.ticker ≠ [] ∧ r.ticker ≠ ("--").toList ∧
      parseDate r.file_date = some fdd ∧ 0 < r.tx_amount ∧
      ∀ d, parseDate r.tx_date = some d → Date.ble d fdd = true := by
  intro r hr
  cases tbody with
  | none =>
    simp only [fetch_txs, Except.ok.injEq] at hok
    subst hok
    simp at hr
  | some rows =>
    simp only [fetch_txs] at hok
    obtain ⟨cols, hc, hpc⟩ :=
      fetchTxsRows_mem first last file_date cutoff tx_type rows recs hok r hr
    obtain ⟨ht1, ht2, ⟨c7, h7, hpa⟩, ⟨cc1, h1, htd, d0, hpd⟩, hfl⟩ :=
      processRow_ok_inv first last file_date cutoff tx_type cols r hpc
    refine ⟨ht1, ht2, by rw [hfl]; exact hfd,
      hamt rows rfl cols hc c7 r.tx_amount h7 hpa, ?_⟩
    intro d hd
    rw [htd] at hd
    exact hdate rows rfl cols hc cc1 d h1 hd

/-- Witness for the C8 amended theorem: a single $100 purchase row dated
before its filing date yields a record with the full invariant. -/
theorem fetch_txs_record_invariants_witness :
    0 < c8goodRec.tx_amount ∧ c8goodRec.ticker ≠ [] := by
  have hamt : ∀ rows, (some [c8goodCols] : Option (List (List PyStr))) = some rows →
      ∀ cols ∈ rows, ∀ c a, cols.get? 7 = some c → parseAmount c = some a → 0 < a := by
    intro rows hrw cols hc c a h7 hpa
    cases hrw
    simp only [List.mem_singleton] at hc
    subst hc
    rw [show c8goodCols.get? 7 = some (("$100").toList) from rfl] at h7
    cases h7
    rw [show parseAmount (("$100").toList) = some 100 from rfl] at hpa
    cases hpa
    omega
  have hdate : ∀ rows, (some [c8goodCols] : Option (List (List PyStr))) = some rows →
      ∀ cols ∈ rows, ∀ c d, cols.get? 1 = some c →
      parseDate (pyStrip c) = some d → Date.ble d ⟨2024, 6, 1⟩ = true := by
    intro rows hrw cols hc c d h1 hpd
    cases hrw
    simp only [List.mem_singleton] at hc
    subst hc
    rw [show c8goodCols.get? 1 = some (("05/02/2024").toList) from rfl] at h1
    cases h1
    rw [show parseDate (pyStrip (("05/02/2024").toList)) = some ⟨2024, 5, 2⟩ from rfl] at hpd
    cases hpd
    decide
  have h := fetch_txs_record_invariants (some [c8goodCols]) (('a') :: []) (('b') :: [])
    (("06/01/2024").toList) ⟨2024, 1, 1⟩ (("Purchase").toList) ⟨2024, 6, 1⟩ [c8goodRec]
    rfl rfl hamt hdate c8goodRec (List.mem_singleton.mpr rfl)
  exact ⟨h.2.2.2.1, h.1⟩

/-- An erroring report makes the whole `senate_trading` loop error: there is
no exception handling around the per-report loop. -/
theorem senateTradingLoop_error (detail : PyStr → Option (List (List PyStr)))
    (cutoff : Date) (tx_type : PyStr) :
    ∀ (reports : List IndexRow),
      (∃ r ∈ reports,
        isErrB (fetch_txs (detail r.link) r.first r.last r.file_date cutoff tx_type) = true) →
      ∃ e, senateTradingLoop detail cutoff tx_type reports = .error e := by
  intro reports
  induction reports with
  | nil =>
    rintro ⟨r, hr, _⟩
    simp at hr
  | cons a rest ih =>
    rintro ⟨r, hr, herr⟩
    rcases hf : fetch_txs (detail a.link) a.first a.last a.file_date cutoff tx_type with e | txs
    · exact ⟨e, by simp [senateTradingLoop, hf]⟩
    · rcases List.mem_cons.mp hr with he | hm
      · subst he
        rw [hf] at herr
        simp [isErrB] at herr
      · obtain ⟨e, he⟩ := ih ⟨r, hm, herr⟩
        exact ⟨e, by simp [senateTradingLoop, hf, he]⟩

/-- C9 amended: filings without a tbody are skipped and contribute nothing,
but a filing whose extraction raises — e.g. a table row whose amount cell
cannot be parsed as an integer — aborts the entire scrape with the raised
exception; per-row and per-filing parse failures are not caught anywhere. -/
theorem scrape_aborts_on_row_error (detail : PyStr → Option (List (List PyStr)))
    (reports : List IndexRow) (cutoff : Date) (tx_type : PyStr)
    (h : ∃ r ∈ reports,
      isErrB (fetch_txs (detail r.link) r.first r.last r.file_date cutoff tx_type) = true) :
    (∃ e, senate_trading detail reports cutoff tx_type = .error e) ∧
    (∀ f l fd, fetch_txs none f l fd cutoff tx_type = .ok []) := by
  refine ⟨?_, fun f l fd => rfl⟩
  obtain ⟨e, he⟩ := senateTradingLoop_error detail cutoff tx_type reports h
  exact ⟨e, by simp [senate_trading, he]⟩

/-- C9 counterexample: a scrape over two filings, the first containing a row
with the unparsable amount cell `N/A` and the second a perfectly good $100
purchase, aborts with `ValueError` and returns nothing — the good filing's
records (which extraction alone produces fine) are lost, refuting the claim
that malformed rows are skipped and never abort the scrape. -/
theorem scrape_malformed_row_aborts_counterexample :
    senate_trading c9detail [c9row1, c9row2] ⟨2024, 1, 1⟩ (("Purchase").toList) =
      .error .valueError ∧
    fetch_txs (c9detail c9row2.link) c9row2.first c9row2.last c9row2.file_date
      ⟨2024, 1, 1⟩ (("Purchase").toList) = .ok [c8goodRec] := ⟨rfl, rfl⟩

/-- Witness for the C9 amended theorem: the malformed filing makes the scrape
return an error. -/
theorem scrape_aborts_on_row_error_witness :
    isErrB (senate_trading c9detail [c9row1] ⟨2024, 1, 1⟩ (("Purchase").toList)) = true := by
  obtain ⟨e, he⟩ := (scrape_aborts_on_row_error c9detail [c9row1] ⟨2024, 1, 1⟩
    (("Purchase").toList) ⟨c9row1, List.mem_singleton.mpr rfl, rfl⟩).1
  rw [he]
  rfl
